import Mathlib

/-!
Verification of the rate-governed HTTP client core of erlc.js.

The definitions below are a shallow embedding of the TypeScript source:
`src/utils/headers.ts` (header parsing), `src/core/http.ts` (HttpClient:
retry loop, etag cache, error classification) and the SmoothRateLimiter
(pacing engine).  JavaScript numbers are modelled as `Int`/`Nat`
(timestamps and durations are nonnegative integers of milliseconds); the
integer fragment of JS `Number()` parsing is modelled, and `Math.ceil` /
`Math.round` of nonnegative rationals p/q are modelled exactly on
numerator/denominator pairs.
-/

namespace Erlc

/-- Ceiling division on naturals: models `Math.ceil(a / b)` for a JS
division of nonnegative integers (exact, no float rounding). -/
def ceilDiv (a b : Nat) : Nat := (a + b - 1) / b

/-- Models `Math.round(p / q)` for nonnegative integers p, q > 0:
JS rounds half away from zero upward, i.e. floor(p/q + 1/2). -/
def jsRound (p q : Nat) : Nat := (2 * p + q) / (2 * q)

/-- Models `clampDelay` from src/utils/headers.ts: non-positive (or
non-numeric, excluded by the Int model) delays become 0, and the delay is
capped at 2^31 - 1 ms. -/
def clampDelay (ms : Int) : Nat :=
  if ms ≤ 0 then 0 else min 2147483647 ms.toNat

/-- Digits-only string to a natural number; none when empty or any
non-digit appears. -/
def digitsToNat (cs : List Char) : Option Nat :=
  if cs.isEmpty then none
  else if cs.all Char.isDigit then
    some (cs.foldl (fun acc c => acc * 10 + (c.toNat - 48)) 0)
  else none

/-- Whitespace as trimmed by JS `Number()` coercion. -/
def isJsSpace (c : Char) : Bool := c == ' ' || c == '\t' || c == '\n' || c == '\r'

/-- Trims leading and trailing whitespace from a character list. -/
def trimChars (cs : List Char) : List Char :=
  (((cs.dropWhile isJsSpace).reverse).dropWhile isJsSpace).reverse

/-- Models the integer fragment of JS `Number(v)` followed by the
`Number.isFinite` test in `num` (src/utils/headers.ts): a trimmed empty
string is 0, an optionally signed digit string is its value, anything
else (NaN / Infinity producers) is none. -/
def jsNumber (s : String) : Option Int :=
  let t := trimChars s.data
  if t.isEmpty then some 0
  else
    match t with
    | '-' :: rest => (digitsToNat rest).map (fun n => -(n : Int))
    | '+' :: rest => (digitsToNat rest).map (fun n => (n : Int))
    | cs => (digitsToNat cs).map (fun n => (n : Int))

/-- ASCII lowercase of one character. -/
def charLower (c : Char) : Char :=
  if c.toNat ≥ 65 ∧ c.toNat ≤ 90 then Char.ofNat (c.toNat + 32) else c

/-- ASCII lowercase of a string (header names are ASCII). -/
def lowerAscii (s : String) : String := String.mk (s.data.map charLower)

/-- Models `Headers.get`: header names compare case-insensitively;
returns the first matching header's value. -/
def hget (hs : List (String × String)) (name : String) : Option String :=
  (hs.find? (fun p => lowerAscii p.1 == lowerAscii name)).map (fun p => p.2)

/-- Models `num(h.get(name))` from src/utils/headers.ts. -/
def num (v : Option String) : Option Int :=
  match v with
  | none => none
  | some s => jsNumber s

/-- Models the `RateHeaders` record of src/utils/headers.ts. -/
structure RateHeaders where
  remaining : Option Int
  resetSeconds : Option Int
  retryAfterSeconds : Option Int
  deriving Repr, DecidableEq

/-- Models `parseRateHeaders` from src/utils/headers.ts. -/
def parseRateHeaders (hs : List (String × String)) : RateHeaders :=
  { remaining := num (hget hs "x-ratelimit-remaining")
    resetSeconds := num (hget hs "x-ratelimit-reset")
    retryAfterSeconds := num (hget hs "retry-after") }

/-! ## HttpClient: error classification, retry loop, cache branches -/

/-- Models the fields of `HttpError` (src/core/http.ts) that the retry
loop and the pacing engine inspect. -/
structure HttpErr where
  status : Nat
  retryAfterMs : Option Int
  deriving Repr, DecidableEq

/-- A failure escaping one attempt of `run`: either an `HttpError`
(`instanceof HttpError` in the source) or any other thrown error
(parse/validation failures), which the retry loop never retries. -/
inductive RunErr where
  | http (e : HttpErr)
  | other (msg : String)
  deriving Repr, DecidableEq

/-- Models `HttpClient.shouldRetry` (src/core/http.ts line 218). -/
def shouldRetry (status : Nat) : Bool :=
  status == 429 || status == 503 || status == 500

/-- Retryability of a thrown error as tested by `withRetries`:
only an `HttpError` with a retryable status is retried. -/
def errRetryable : RunErr → Bool
  | RunErr.http e => shouldRetry e.status
  | RunErr.other _ => false

/-- Models `Math.max(0, opts.retries ?? 3)` from the HttpClient
constructor. -/
def mkRetries (o : Option Int) : Nat := (max 0 (o.getD 3)).toNat

/-- The `withRetries` loop body (src/core/http.ts lines 177-216), with
the attempts indexed by a result oracle `results`.  `fuel` is the number
of remaining loop iterations (`retries + 1 - attempt`), `lastErr` the
last stored error.  Returns the outcome together with the total number
of transport attempts made.  Sleeping and `penalize` side effects do not
affect the control flow modelled here. -/
def withRetriesGo {A : Type} (results : Nat → Except RunErr A) :
    Nat → Nat → RunErr → Except RunErr A × Nat
  | attempt, 0, lastErr => (Except.error lastErr, attempt)
  | attempt, fuel + 1, _ =>
    match results attempt with
    | Except.ok v => (Except.ok v, attempt + 1)
    | Except.error e =>
      if errRetryable e then withRetriesGo results (attempt + 1) fuel e
      else (Except.error e, attempt + 1)

/-- Models `HttpClient.withRetries`: runs up to `retries + 1` attempts. -/
def withRetries {A : Type} (retries : Nat) (results : Nat → Except RunErr A) :
    Except RunErr A × Nat :=
  withRetriesGo results 0 (retries + 1) (RunErr.other "no attempt")

/-- Models `CacheEntry` from src/core/http.ts. -/
structure CacheEntry (A : Type) where
  etag : String
  data : A
  deriving Repr, DecidableEq

/-- A transport response as consumed by `run`:
status, headers and raw body text. -/
structure Response where
  status : Nat
  headers : List (String × String)
  body : String
  deriving Repr, DecidableEq

/-- Models `Response.ok`: status in [200, 300). -/
def Response.ok (r : Response) : Bool :=
  Nat.ble 200 r.status && Nat.blt r.status 300

/-- Models `HttpClient.toHttpError` for the fields the claims concern:
status and the retry-after hint (seconds * 1000). -/
def mkHttpError (resp : Response) : HttpErr :=
  { status := resp.status
    retryAfterMs := (parseRateHeaders resp.headers).retryAfterSeconds.map (fun s => s * 1000) }

/-- The etag-match test of the 200-with-unchanged-etag branch
(src/core/http.ts line 145): `response.ok && newEtag && cached &&
cached.etag === newEtag`, with JS truthiness of the etag string (an
empty etag never matches). -/
def etagMatches {A : Type} (cache : Option (CacheEntry A)) (newEtag : Option String) : Bool :=
  match newEtag, cache with
  | some t, some c => !(t == "") && (c.etag == t)
  | _, _ => false

/-- Models one execution of the `run` closure of `HttpClient.request`
(src/core/http.ts lines 118-172) as a pure function of the cacheability
flag, the current cache entry for the request's key, the combined
parse-and-validate function `pv` (parseBody plus the optional zod
schema), and the transport response.  Returns the outcome and the new
cache entry for the key.  The `limiter.updateFromHeaders` call is the
pacing engine's concern and is modelled separately. -/
def runOnce {A : Type} (cacheable : Bool) (cache : Option (CacheEntry A))
    (pv : Response → Except String A) (resp : Response) :
    Except RunErr A × Option (CacheEntry A) :=
  if cacheable && (resp.status == 304) && cache.isSome then
    match cache with
    | some c => (Except.ok c.data, some c)
    | none => (Except.error (RunErr.other "unreachable"), none)
  else if cacheable && resp.ok && etagMatches cache (hget resp.headers "etag") then
    match cache with
    | some c => (Except.ok c.data, some c)
    | none => (Except.error (RunErr.other "unreachable"), none)
  else if !resp.ok then
    (Except.error (RunErr.http (mkHttpError resp)), cache)
  else
    match pv resp with
    | Except.error msg => (Except.error (RunErr.other msg), cache)
    | Except.ok v =>
      if cacheable then
        match hget resp.headers "etag" with
        | some t => if t == "" then (Except.ok v, cache) else (Except.ok v, some { etag := t, data := v })
        | none => (Except.ok v, cache)
      else (Except.ok v, cache)

/-! ## SmoothRateLimiter: the per-route pacing engine -/

/-- Models `SmoothRateLimiterOptions` (unnamed limiter source), with
absent options as `none`. -/
structure SmoothRateLimiterOptions where
  requestsPerMinute : Option Int
  maxConcurrency : Option Int
  minIntervalMs : Option Int
  deriving Repr, DecidableEq

/-- The clamped configuration computed by the SmoothRateLimiter
constructor: `defaultRpm = max(1, rpm ?? 60)`,
`maxConcurrency = max(1, maxConcurrency ?? 4)`,
`minInterval = max(0, minIntervalMs ?? 0)`.  `baseConcurrency` is the
literal 1 of the constructor. -/
structure LimiterConfig where
  defaultRpm : Nat
  maxConcurrency : Nat
  minInterval : Nat
  deriving Repr, DecidableEq

/-- Models the constructor's option clamping. -/
def mkConfig (o : SmoothRateLimiterOptions) : LimiterConfig :=
  { defaultRpm := (max 1 (o.requestsPerMinute.getD 60)).toNat
    maxConcurrency := (max 1 (o.maxConcurrency.getD 4)).toNat
    minInterval := (max 0 (o.minIntervalMs.getD 0)).toNat }

/-- Models `SmoothRateLimiter.defaultInterval`:
`max(minInterval, ceil(60000 / defaultRpm))`. -/
def defaultInterval (cfg : LimiterConfig) : Nat :=
  max cfg.minInterval (ceilDiv 60000 cfg.defaultRpm)

/-- The mutable state of one SmoothRateLimiter.  `queue` holds task
identifiers in FIFO order; `started` is a ghost trace of the
identifiers in admission order and `nextId` the enqueue counter that
assigns them (identifiers number tasks by enqueue order; the source
stores closures instead, which a shallow embedding replaces by ids).
Timer bookkeeping (`timer`, `timerDueTime`) only decides when `pump`
runs again, which the event semantics below over-approximates by
letting a timer fire at any time, so it is not part of the state. -/
structure LimiterState where
  queue : List Nat
  running : Nat
  nextAvailableTime : Nat
  currentInterval : Nat
  currentConcurrency : Nat
  windowResetAt : Option Nat
  windowDuration : Nat
  started : List Nat
  nextId : Nat
  deriving Repr, DecidableEq

/-- The state set up by the constructor (DEFAULT_WINDOW_MS = 60000,
baseConcurrency = 1). -/
def initState (cfg : LimiterConfig) : LimiterState :=
  { queue := []
    running := 0
    nextAvailableTime := 0
    currentInterval := defaultInterval cfg
    currentConcurrency := 1
    windowResetAt := none
    windowDuration := 60000
    started := []
    nextId := 0 }

/-- Models `SmoothRateLimiter.maybeReset`: when a truthy `windowResetAt`
has been reached, pacing reverts to the baseline and the window
bookkeeping is cleared (JS truthiness of the number `windowResetAt` is
the `t ≠ 0` test). -/
def maybeReset (cfg : LimiterConfig) (now : Nat) (s : LimiterState) : LimiterState :=
  match s.windowResetAt with
  | some t =>
    if t ≠ 0 ∧ t ≤ now then
      { s with windowResetAt := none
               windowDuration := 60000
               currentInterval := defaultInterval cfg
               currentConcurrency := 1
               nextAvailableTime := min s.nextAvailableTime now }
    else s
  | none => s

/-- Models `SmoothRateLimiter.calculateInterval`. -/
def calculateInterval (cfg : LimiterConfig) (tokens timeToReset : Nat) : Nat :=
  let duration := max cfg.minInterval timeToReset
  max cfg.minInterval (ceilDiv duration (max 1 tokens))

/-- Models `SmoothRateLimiter.calculateConcurrency`:
`ratio = (tokens / timeToReset) / (1 / defaultInterval)` is the exact
rational `tokens * defaultInterval / timeToReset`, rounded as JS
`Math.round`. -/
def calculateConcurrency (cfg : LimiterConfig) (tokens timeToReset : Nat) : Nat :=
  if timeToReset = 0 then 1
  else
    let r := jsRound (tokens * defaultInterval cfg) timeToReset
    max 1 (min cfg.maxConcurrency (max 1 r))

/-- Models `SmoothRateLimiter.resolveReset` (the `Number.isFinite` guard
is vacuous in the integer model since `parseRateHeaders` only produces
finite values).  The state is read only through `windowDuration`, passed
explicitly.  Returns `(resetAt, durationMs)`; the JS `undefined` cannot
arise and falsy results are the value 0. -/
def resolveReset (cfg : LimiterConfig) (resetSeconds : Int) (now : Nat)
    (windowDuration : Nat) : Nat × Nat :=
  let seconds : Nat := resetSeconds.toNat
  let currentSeconds := now / 1000
  if currentSeconds + 5 < seconds ∨ 100000 < seconds then
    let resetAt := seconds * 1000
    let duration := max (defaultInterval cfg) (resetAt - now)
    (resetAt, duration)
  else
    let duration := seconds * 1000
    (now + duration, if duration = 0 then windowDuration else duration)

/-- The `resetSeconds` block of `updateFromHeaders` (the
`if (resetAt) { ... if (durationMs) ... }` truthiness tests are `≠ 0`;
`scheduleTimer` only influences when `pump` runs again and is handled
by the event semantics). -/
def applyResetHeader (cfg : LimiterConfig) (rs : Option Int) (now : Nat)
    (s : LimiterState) : LimiterState :=
  match rs with
  | none => s
  | some v =>
    let rr := resolveReset cfg v now s.windowDuration
    if rr.1 ≠ 0 then
      let s1 := { s with windowResetAt := some rr.1 }
      if rr.2 ≠ 0 then { s1 with windowDuration := rr.2 } else s1
    else s

/-- The `remaining` block of `updateFromHeaders`:
`remaining = max(0, rate.remaining)`, `tokens = remaining + 1`,
`timeToReset = resetAt ? max(0, resetAt - now) : windowDuration`
(Nat subtraction is the `max(0, ...)`), and the recalculation is fed
`timeToReset || windowDuration`. -/
def applyRemaining (cfg : LimiterConfig) (rem : Option Int) (now : Nat)
    (s : LimiterState) : LimiterState :=
  match rem with
  | none => s
  | some r =>
    let remaining := r.toNat
    let tokens := remaining + 1
    let timeToReset :=
      match s.windowResetAt with
      | some resetAt => if resetAt ≠ 0 then resetAt - now else s.windowDuration
      | none => s.windowDuration
    let teff := if timeToReset = 0 then s.windowDuration else timeToReset
    { s with currentInterval := calculateInterval cfg tokens teff
             currentConcurrency := calculateConcurrency cfg tokens teff }

/-- Models `SmoothRateLimiter.pump`: nothing happens on an empty queue;
otherwise an overdue window is reset first, and one task is admitted
when the concurrency gate and the pacing gate both pass.  Admission
advances `nextAvailableTime` by the current interval from
`max(now, nextAvailableTime)`. -/
def pump (cfg : LimiterConfig) (now : Nat) (s : LimiterState) : LimiterState :=
  if s.queue.isEmpty then s
  else
    let s1 := maybeReset cfg now s
    if s1.currentConcurrency ≤ s1.running then s1
    else if now < s1.nextAvailableTime then s1
    else
      match s1.queue with
      | [] => s1
      | t :: rest =>
        let startAt := max now s1.nextAvailableTime
        { s1 with queue := rest
                  running := s1.running + 1
                  nextAvailableTime := startAt + s1.currentInterval
                  started := s1.started ++ [t] }

/-- Models `SmoothRateLimiter.updateFromHeaders` on already parsed
headers: maybeReset, then the resetSeconds block, then the remaining
block, then pump. -/
def updateFromHeaders (cfg : LimiterConfig) (h : RateHeaders) (now : Nat)
    (s : LimiterState) : LimiterState :=
  pump cfg now
    (applyRemaining cfg h.remaining now
      (applyResetHeader cfg h.resetSeconds now
        (maybeReset cfg now s)))

/-- Models `SmoothRateLimiter.penalize`: pushes `nextAvailableTime` to
at least `now + clampDelay(waitMs)` when the clamped delay is positive. -/
def penalize (now : Nat) (waitMs : Int) (s : LimiterState) : LimiterState :=
  let delay := clampDelay waitMs
  if delay = 0 then s
  else { s with nextAvailableTime := max s.nextAvailableTime (now + delay) }

/-- Models `SmoothRateLimiter.schedule`: the task is appended to the
queue (its id is the enqueue counter) and the pump runs. -/
def schedule (cfg : LimiterConfig) (now : Nat) (s : LimiterState) : LimiterState :=
  pump cfg now { s with queue := s.queue ++ [s.nextId], nextId := s.nextId + 1 }

/-- Completion of a running task (the `.then`/`.catch` continuation in
`pump`): `running` decrements and the pump runs again. -/
def finishTask (cfg : LimiterConfig) (now : Nat) (s : LimiterState) : LimiterState :=
  pump cfg now { s with running := s.running - 1 }

/-- One observable event on a SmoothRateLimiter.  Timer firings are
over-approximated: a timer may fire at any instant, which only ever
calls `pump`. -/
inductive LEvent where
  | schedule (now : Nat)
  | update (h : RateHeaders) (now : Nat)
  | penalty (waitMs : Int) (now : Nat)
  | timer (now : Nat)
  | finish (now : Nat)
  deriving Repr, DecidableEq

/-- The step function of the event semantics. -/
def stepE (cfg : LimiterConfig) (s : LimiterState) : LEvent → LimiterState
  | LEvent.schedule now => schedule cfg now s
  | LEvent.update h now => updateFromHeaders cfg h now s
  | LEvent.penalty w now => penalize now w s
  | LEvent.timer now => pump cfg now s
  | LEvent.finish now => finishTask cfg now s

/-- Runs a list of events from a state. -/
def runE (cfg : LimiterConfig) (s : LimiterState) : List LEvent → LimiterState
  | [] => s
  | e :: es => runE cfg (stepE cfg s e) es

/-- The `maybeReset` trigger condition on a state: a truthy
`windowResetAt` that `now` has reached. -/
def resetDueB (s : LimiterState) (now : Nat) : Bool :=
  match s.windowResetAt with
  | some t => decide (t ≠ 0 ∧ t ≤ now)
  | none => false

/-- The effective time-to-reset that the `remaining` block of
`updateFromHeaders` feeds to the recalculation, read off a state:
`resetAt ? max(0, resetAt - now) : windowDuration`, then the
`|| windowDuration` fallback. -/
def effectiveTimeToReset (s : LimiterState) (now : Nat) : Nat :=
  let t :=
    match s.windowResetAt with
    | some resetAt => if resetAt ≠ 0 then resetAt - now else s.windowDuration
    | none => s.windowDuration
  if t = 0 then s.windowDuration else t

/-- The pacing-state quadruple (currentIntervalMs, currentConcurrency,
windowResetAt, windowDuration). -/
def pacing4 (s : LimiterState) : Nat × Nat × Option Nat × Nat :=
  (s.currentInterval, s.currentConcurrency, s.windowResetAt, s.windowDuration)

/-- A reset header (if any) whose resolved reset time is strictly in
the future: in the absolute-timestamp regime the timestamp exceeds
`now`, in the relative regime the duration is at least one second (or
`now = 0`, where the resolved reset time 0 is falsy and ignored). -/
def resetHeaderSafe (h : RateHeaders) (now : Nat) : Bool :=
  match h.resetSeconds with
  | none => true
  | some v =>
    let sec := v.toNat
    if now / 1000 + 5 < sec ∨ 100000 < sec then decide (now < sec * 1000)
    else decide (1 ≤ sec ∨ now = 0)

/-! ## Arithmetic facts about the pacing formulas -/

theorem ceilDiv_le_iff (a k c : Nat) (hk : 0 < k) : ceilDiv a k ≤ c ↔ a ≤ c * k := by
  unfold ceilDiv
  rw [← Nat.lt_succ_iff, Nat.div_lt_iff_lt_mul hk, Nat.succ_mul]
  omega

theorem le_ceilDiv_mul (a k : Nat) (hk : 0 < k) : a ≤ ceilDiv a k * k :=
  (ceilDiv_le_iff a k (ceilDiv a k) hk).mp le_rfl

theorem ceilDiv_mono_left (a b k : Nat) (hk : 0 < k) (h : a ≤ b) :
    ceilDiv a k ≤ ceilDiv b k :=
  (ceilDiv_le_iff a k (ceilDiv b k) hk).mpr (le_trans h (le_ceilDiv_mul b k hk))

theorem ceilDiv_anti_right (a k1 k2 : Nat) (hk1 : 0 < k1) (h : k1 ≤ k2) :
    ceilDiv a k2 ≤ ceilDiv a k1 :=
  (ceilDiv_le_iff a k2 (ceilDiv a k1) (lt_of_lt_of_le hk1 h)).mpr
    (le_trans (le_ceilDiv_mul a k1 hk1) (Nat.mul_le_mul_left _ h))

theorem ceilDiv_le_self (a k : Nat) (hk : 0 < k) : ceilDiv a k ≤ a :=
  (ceilDiv_le_iff a k a hk).mpr (Nat.le_mul_of_pos_right a hk)

theorem max_ceilDiv_max (m t k : Nat) (hk : 0 < k) :
    max m (ceilDiv (max m t) k) = max m (ceilDiv t k) := by
  rcases le_total m t with h | h
  · rw [Nat.max_eq_right h]
  · rw [Nat.max_eq_left h]
    rw [Nat.max_eq_left (ceilDiv_le_self m k hk),
      Nat.max_eq_left (le_trans (ceilDiv_le_self t k hk) h)]

theorem calculateInterval_eq (cfg : LimiterConfig) (n t : Nat) :
    calculateInterval cfg (n + 1) t = max cfg.minInterval (ceilDiv t (n + 1)) := by
  unfold calculateInterval
  rw [Nat.max_eq_right (Nat.succ_le_succ (Nat.zero_le n))]
  exact max_ceilDiv_max cfg.minInterval t (n + 1) (Nat.succ_pos n)

theorem calculateInterval_anti_tokens (cfg : LimiterConfig) (t k1 k2 : Nat) (h : k1 ≤ k2) :
    calculateInterval cfg k2 t ≤ calculateInterval cfg k1 t := by
  unfold calculateInterval
  exact max_le_max le_rfl
    (ceilDiv_anti_right _ _ _ (lt_of_lt_of_le Nat.one_pos (le_max_left 1 k1))
      (max_le_max le_rfl h))

theorem calculateInterval_mono_time (cfg : LimiterConfig) (k t1 t2 : Nat) (h : t1 ≤ t2) :
    calculateInterval cfg k t1 ≤ calculateInterval cfg k t2 := by
  unfold calculateInterval
  exact max_le_max le_rfl
    (ceilDiv_mono_left _ _ _ (lt_of_lt_of_le Nat.one_pos (le_max_left 1 k))
      (max_le_max le_rfl h))

theorem calculateConcurrency_bounds (cfg : LimiterConfig) (hm : 1 ≤ cfg.maxConcurrency)
    (tokens t : Nat) :
    1 ≤ calculateConcurrency cfg tokens t ∧
      calculateConcurrency cfg tokens t ≤ cfg.maxConcurrency := by
  unfold calculateConcurrency
  split
  · exact ⟨le_rfl, hm⟩
  · exact ⟨le_max_left _ _, Nat.max_le.mpr ⟨hm, min_le_left _ _⟩⟩

theorem one_le_mkConfig_maxConcurrency (o : SmoothRateLimiterOptions) :
    1 ≤ (mkConfig o).maxConcurrency := by
  have h : (1 : Int) ≤ max 1 (o.maxConcurrency.getD 4) := le_max_left _ _
  simp only [mkConfig]
  exact Int.toNat_le_toNat h

/-! ## Structural lemmas about the pacing engine's operations -/

theorem maybeReset_eq (cfg : LimiterConfig) (now : Nat) (s : LimiterState) :
    maybeReset cfg now s =
      if resetDueB s now then
        { s with windowResetAt := none
                 windowDuration := 60000
                 currentInterval := defaultInterval cfg
                 currentConcurrency := 1
                 nextAvailableTime := min s.nextAvailableTime now }
      else s := by
  rcases hw : s.windowResetAt with _ | t
  · simp [maybeReset, resetDueB, hw]
  · by_cases h : t ≠ 0 ∧ t ≤ now
    · simp [maybeReset, resetDueB, hw, h]
    · simp [maybeReset, resetDueB, hw, h]

@[simp] theorem maybeReset_queue (cfg : LimiterConfig) (now : Nat) (s : LimiterState) :
    (maybeReset cfg now s).queue = s.queue := by
  rw [maybeReset_eq]; split <;> rfl

@[simp] theorem maybeReset_running (cfg : LimiterConfig) (now : Nat) (s : LimiterState) :
    (maybeReset cfg now s).running = s.running := by
  rw [maybeReset_eq]; split <;> rfl

@[simp] theorem maybeReset_started (cfg : LimiterConfig) (now : Nat) (s : LimiterState) :
    (maybeReset cfg now s).started = s.started := by
  rw [maybeReset_eq]; split <;> rfl

@[simp] theorem maybeReset_nextId (cfg : LimiterConfig) (now : Nat) (s : LimiterState) :
    (maybeReset cfg now s).nextId = s.nextId := by
  rw [maybeReset_eq]; split <;> rfl

theorem maybeReset_eq_self_of_notDue (cfg : LimiterConfig) (now : Nat) (s : LimiterState)
    (h : resetDueB s now = false) : maybeReset cfg now s = s := by
  rw [maybeReset_eq, h]; rfl

theorem maybeReset_notDue_after (cfg : LimiterConfig) (now : Nat) (s : LimiterState) :
    resetDueB (maybeReset cfg now s) now = false := by
  rw [maybeReset_eq]
  split
  · rfl
  · rename_i h
    exact Bool.not_eq_true _ |>.mp h

theorem maybeReset_currentInterval (cfg : LimiterConfig) (now : Nat) (s : LimiterState) :
    (maybeReset cfg now s).currentInterval =
      if resetDueB s now then defaultInterval cfg else s.currentInterval := by
  rw [maybeReset_eq]; split <;> simp [*]

theorem resetDueB_congr {a b : LimiterState} (now : Nat)
    (h : a.windowResetAt = b.windowResetAt) : resetDueB a now = resetDueB b now := by
  unfold resetDueB; rw [h]

theorem effectiveTimeToReset_congr {a b : LimiterState} (now : Nat)
    (h1 : a.windowResetAt = b.windowResetAt) (h2 : a.windowDuration = b.windowDuration) :
    effectiveTimeToReset a now = effectiveTimeToReset b now := by
  unfold effectiveTimeToReset; rw [h1, h2]

@[simp] theorem applyResetHeader_queue (cfg : LimiterConfig) (rs : Option Int) (now : Nat)
    (s : LimiterState) : (applyResetHeader cfg rs now s).queue = s.queue := by
  unfold applyResetHeader
  rcases rs with _ | v
  · rfl
  · dsimp only
    split
    · split <;> rfl
    · rfl

@[simp] theorem applyResetHeader_running (cfg : LimiterConfig) (rs : Option Int) (now : Nat)
    (s : LimiterState) : (applyResetHeader cfg rs now s).running = s.running := by
  unfold applyResetHeader
  rcases rs with _ | v
  · rfl
  · dsimp only
    split
    · split <;> rfl
    · rfl

@[simp] theorem applyResetHeader_started (cfg : LimiterConfig) (rs : Option Int) (now : Nat)
    (s : LimiterState) : (applyResetHeader cfg rs now s).started = s.started := by
  unfold applyResetHeader
  rcases rs with _ | v
  · rfl
  · dsimp only
    split
    · split <;> rfl
    · rfl

@[simp] theorem applyResetHeader_nextId (cfg : LimiterConfig) (rs : Option Int) (now : Nat)
    (s : LimiterState) : (applyResetHeader cfg rs now s).nextId = s.nextId := by
  unfold applyResetHeader
  rcases rs with _ | v
  · rfl
  · dsimp only
    split
    · split <;> rfl
    · rfl

@[simp] theorem applyResetHeader_currentInterval (cfg : LimiterConfig) (rs : Option Int)
    (now : Nat) (s : LimiterState) :
    (applyResetHeader cfg rs now s).currentInterval = s.currentInterval := by
  unfold applyResetHeader
  rcases rs with _ | v
  · rfl
  · dsimp only
    split
    · split <;> rfl
    · rfl

@[simp] theorem applyResetHeader_currentConcurrency (cfg : LimiterConfig) (rs : Option Int)
    (now : Nat) (s : LimiterState) :
    (applyResetHeader cfg rs now s).currentConcurrency = s.currentConcurrency := by
  unfold applyResetHeader
  rcases rs with _ | v
  · rfl
  · dsimp only
    split
    · split <;> rfl
    · rfl

@[simp] theorem applyResetHeader_nextAvailableTime (cfg : LimiterConfig) (rs : Option Int)
    (now : Nat) (s : LimiterState) :
    (applyResetHeader cfg rs now s).nextAvailableTime = s.nextAvailableTime := by
  unfold applyResetHeader
  rcases rs with _ | v
  · rfl
  · dsimp only
    split
    · split <;> rfl
    · rfl

@[simp] theorem applyRemaining_queue (cfg : LimiterConfig) (rem : Option Int) (now : Nat)
    (s : LimiterState) : (applyRemaining cfg rem now s).queue = s.queue := by
  rcases rem with _ | r <;> rfl

@[simp] theorem applyRemaining_running (cfg : LimiterConfig) (rem : Option Int) (now : Nat)
    (s : LimiterState) : (applyRemaining cfg rem now s).running = s.running := by
  rcases rem with _ | r <;> rfl

@[simp] theorem applyRemaining_started (cfg : LimiterConfig) (rem : Option Int) (now : Nat)
    (s : LimiterState) : (applyRemaining cfg rem now s).started = s.started := by
  rcases rem with _ | r <;> rfl

@[simp] theorem applyRemaining_nextId (cfg : LimiterConfig) (rem : Option Int) (now : Nat)
    (s : LimiterState) : (applyRemaining cfg rem now s).nextId = s.nextId := by
  rcases rem with _ | r <;> rfl

@[simp] theorem applyRemaining_windowResetAt (cfg : LimiterConfig) (rem : Option Int)
    (now : Nat) (s : LimiterState) :
    (applyRemaining cfg rem now s).windowResetAt = s.windowResetAt := by
  rcases rem with _ | r <;> rfl

@[simp] theorem applyRemaining_windowDuration (cfg : LimiterConfig) (rem : Option Int)
    (now : Nat) (s : LimiterState) :
    (applyRemaining cfg rem now s).windowDuration = s.windowDuration := by
  rcases rem with _ | r <;> rfl

@[simp] theorem applyRemaining_nextAvailableTime (cfg : LimiterConfig) (rem : Option Int)
    (now : Nat) (s : LimiterState) :
    (applyRemaining cfg rem now s).nextAvailableTime = s.nextAvailableTime := by
  rcases rem with _ | r <;> rfl

theorem applyRemaining_currentInterval_some (cfg : LimiterConfig) (r : Int) (now : Nat)
    (s : LimiterState) :
    (applyRemaining cfg (some r) now s).currentInterval =
      calculateInterval cfg (r.toNat + 1) (effectiveTimeToReset s now) := rfl

theorem applyRemaining_currentConcurrency_some (cfg : LimiterConfig) (r : Int) (now : Nat)
    (s : LimiterState) :
    (applyRemaining cfg (some r) now s).currentConcurrency =
      calculateConcurrency cfg (r.toNat + 1) (effectiveTimeToReset s now) := rfl

theorem pump_eq_of_empty (cfg : LimiterConfig) (now : Nat) (s : LimiterState)
    (h : s.queue = []) : pump cfg now s = s := by
  simp [pump, h]

theorem pump_currentInterval (cfg : LimiterConfig) (now : Nat) (s : LimiterState) :
    (pump cfg now s).currentInterval =
      if s.queue.isEmpty then s.currentInterval
      else (maybeReset cfg now s).currentInterval := by
  unfold pump
  split
  · rfl
  · dsimp only
    split
    · rfl
    · split
      · rfl
      · split <;> rfl

theorem pump_currentConcurrency (cfg : LimiterConfig) (now : Nat) (s : LimiterState) :
    (pump cfg now s).currentConcurrency =
      if s.queue.isEmpty then s.currentConcurrency
      else (maybeReset cfg now s).currentConcurrency := by
  unfold pump
  split
  · rfl
  · dsimp only
    split
    · rfl
    · split
      · rfl
      · split <;> rfl

theorem pump_windowResetAt (cfg : LimiterConfig) (now : Nat) (s : LimiterState) :
    (pump cfg now s).windowResetAt =
      if s.queue.isEmpty then s.windowResetAt
      else (maybeReset cfg now s).windowResetAt := by
  unfold pump
  split
  · rfl
  · dsimp only
    split
    · rfl
    · split
      · rfl
      · split <;> rfl

theorem pump_windowDuration (cfg : LimiterConfig) (now : Nat) (s : LimiterState) :
    (pump cfg now s).windowDuration =
      if s.queue.isEmpty then s.windowDuration
      else (maybeReset cfg now s).windowDuration := by
  unfold pump
  split
  · rfl
  · dsimp only
    split
    · rfl
    · split
      · rfl
      · split <;> rfl

theorem pump_nextId (cfg : LimiterConfig) (now : Nat) (s : LimiterState) :
    (pump cfg now s).nextId = s.nextId := by
  unfold pump
  split
  · rfl
  · dsimp only
    split
    · simp
    · split
      · simp
      · split <;> simp

theorem pump_pacing_of_notDue (cfg : LimiterConfig) (now : Nat) (s : LimiterState)
    (h : resetDueB s now = false) :
    (pump cfg now s).currentInterval = s.currentInterval ∧
    (pump cfg now s).currentConcurrency = s.currentConcurrency ∧
    (pump cfg now s).windowResetAt = s.windowResetAt ∧
    (pump cfg now s).windowDuration = s.windowDuration := by
  have hm : maybeReset cfg now s = s := maybeReset_eq_self_of_notDue cfg now s h
  refine ⟨?_, ?_, ?_, ?_⟩
  · rw [pump_currentInterval, hm, ite_self]
  · rw [pump_currentConcurrency, hm, ite_self]
  · rw [pump_windowResetAt, hm, ite_self]
  · rw [pump_windowDuration, hm, ite_self]

theorem pump_startedQueue (cfg : LimiterConfig) (now : Nat) (s : LimiterState) :
    (pump cfg now s).started ++ (pump cfg now s).queue = s.started ++ s.queue := by
  unfold pump
  split
  · rfl
  · dsimp only
    split
    · simp
    · split
      · simp
      · split
        · simp
        · rename_i heq
          rw [maybeReset_queue] at heq
          simp [heq]

theorem applyResetHeader_relative (cfg : LimiterConfig) (v : Int) (now : Nat)
    (s : LimiterState) (h1 : 1 ≤ v.toNat)
    (h2 : ¬(now / 1000 + 5 < v.toNat ∨ 100000 < v.toNat)) :
    applyResetHeader cfg (some v) now s =
      { s with windowResetAt := some (now + v.toNat * 1000)
               windowDuration := v.toNat * 1000 } := by
  unfold applyResetHeader resolveReset
  dsimp only
  rw [if_neg h2]
  have hd : ¬(v.toNat * 1000 = 0) := by omega
  have hr : now + v.toNat * 1000 ≠ 0 := by omega
  dsimp only
  rw [if_neg hd, if_pos hr, if_pos hd]

theorem applyResetHeader_absolute (cfg : LimiterConfig) (v : Int) (now : Nat)
    (s : LimiterState) (hcond : now / 1000 + 5 < v.toNat ∨ 100000 < v.toNat)
    (hfut : now < v.toNat * 1000) :
    applyResetHeader cfg (some v) now s =
      { s with windowResetAt := some (v.toNat * 1000)
               windowDuration := max (defaultInterval cfg) (v.toNat * 1000 - now) } := by
  unfold applyResetHeader resolveReset
  dsimp only
  rw [if_pos hcond]
  have hr : v.toNat * 1000 ≠ 0 := by omega
  have hd : max (defaultInterval cfg) (v.toNat * 1000 - now) ≠ 0 := by
    have : 1 ≤ v.toNat * 1000 - now := by omega
    have := le_max_right (defaultInterval cfg) (v.toNat * 1000 - now)
    omega
  dsimp only
  rw [if_pos hr, if_pos hd]

theorem applyResetHeader_zero_now (cfg : LimiterConfig) (v : Int) (s : LimiterState)
    (hsec : v.toNat = 0) :
    applyResetHeader cfg (some v) 0 s = s := by
  unfold applyResetHeader resolveReset
  dsimp only
  have h2 : ¬(0 / 1000 + 5 < v.toNat ∨ 100000 < v.toNat) := by omega
  rw [if_neg h2]
  dsimp only
  rw [hsec]
  norm_num

theorem resetDueB_of_future {s : LimiterState} {now t : Nat} (h1 : s.windowResetAt = some t)
    (h2 : now < t) : resetDueB s now = false := by
  unfold resetDueB
  rw [h1]
  simp only [decide_eq_false_iff_not]
  omega

theorem effT_of_future {s : LimiterState} {now t : Nat} (h1 : s.windowResetAt = some t)
    (h2 : now < t) : effectiveTimeToReset s now = t - now := by
  unfold effectiveTimeToReset
  rw [h1]
  dsimp only
  have ht : t ≠ 0 := by omega
  have ht2 : ¬(t - now = 0) := by omega
  rw [if_pos ht, if_neg ht2]

/-! ## C6: window reset restores the baseline -/

/-- C6: once the current time reaches or passes a known (truthy)
windowResetAt, the reset performed by `maybeReset` — and hence by an
`updateFromHeaders` call carrying no rate signals — reverts pacing to
its baseline: currentConcurrency 1, currentIntervalMs
`max(minInterval, ceil(60000 / rpm))`, windowResetAt cleared (and the
window duration back to the 60000 ms default). -/
theorem c6_window_reset (cfg : LimiterConfig) (s : LimiterState) (t now : Nat)
    (h1 : s.windowResetAt = some t) (h2 : t ≠ 0) (h3 : t ≤ now) :
    ((maybeReset cfg now s).currentConcurrency = 1 ∧
     (maybeReset cfg now s).currentInterval =
       max cfg.minInterval (ceilDiv 60000 cfg.defaultRpm) ∧
     (maybeReset cfg now s).windowResetAt = none ∧
     (maybeReset cfg now s).windowDuration = 60000) ∧
    ((updateFromHeaders cfg ⟨none, none, none⟩ now s).currentConcurrency = 1 ∧
     (updateFromHeaders cfg ⟨none, none, none⟩ now s).currentInterval =
       max cfg.minInterval (ceilDiv 60000 cfg.defaultRpm) ∧
     (updateFromHeaders cfg ⟨none, none, none⟩ now s).windowResetAt = none) := by
  have hdue : resetDueB s now = true := by
    unfold resetDueB
    rw [h1]
    simp [h2, h3]
  have hmr : maybeReset cfg now s =
      { s with windowResetAt := none
               windowDuration := 60000
               currentInterval := defaultInterval cfg
               currentConcurrency := 1
               nextAvailableTime := min s.nextAvailableTime now } := by
    rw [maybeReset_eq, hdue]
    rfl
  have hfields : (maybeReset cfg now s).currentConcurrency = 1 ∧
      (maybeReset cfg now s).currentInterval =
        max cfg.minInterval (ceilDiv 60000 cfg.defaultRpm) ∧
      (maybeReset cfg now s).windowResetAt = none ∧
      (maybeReset cfg now s).windowDuration = 60000 := by
    rw [hmr]
    exact ⟨rfl, rfl, rfl, rfl⟩
  refine ⟨hfields, ?_⟩
  have hU : updateFromHeaders cfg ⟨none, none, none⟩ now s =
      pump cfg now (maybeReset cfg now s) := rfl
  have hnd : resetDueB (maybeReset cfg now s) now = false := maybeReset_notDue_after cfg now s
  have hp := pump_pacing_of_notDue cfg now (maybeReset cfg now s) hnd
  rw [hU]
  exact ⟨hp.2.1.trans hfields.1, hp.1.trans hfields.2.1, hp.2.2.1.trans hfields.2.2.1⟩

/-- Witness for C6: a state with windowResetAt 5000 at time 6000 under
the default configuration reverts to concurrency 1 and the default
interval. -/
theorem c6_window_reset_witness :
    ((maybeReset (mkConfig ⟨none, none, none⟩) 6000
        { queue := [], running := 0, nextAvailableTime := 0, currentInterval := 77,
          currentConcurrency := 3, windowResetAt := some 5000, windowDuration := 30000,
          started := [], nextId := 0 }).currentConcurrency = 1 ∧
     (maybeReset (mkConfig ⟨none, none, none⟩) 6000
        { queue := [], running := 0, nextAvailableTime := 0, currentInterval := 77,
          currentConcurrency := 3, windowResetAt := some 5000, windowDuration := 30000,
          started := [], nextId := 0 }).currentInterval =
       max (mkConfig ⟨none, none, none⟩).minInterval
         (ceilDiv 60000 (mkConfig ⟨none, none, none⟩).defaultRpm) ∧
     (maybeReset (mkConfig ⟨none, none, none⟩) 6000
        { queue := [], running := 0, nextAvailableTime := 0, currentInterval := 77,
          currentConcurrency := 3, windowResetAt := some 5000, windowDuration := 30000,
          started := [], nextId := 0 }).windowResetAt = none ∧
     (maybeReset (mkConfig ⟨none, none, none⟩) 6000
        { queue := [], running := 0, nextAvailableTime := 0, currentInterval := 77,
          currentConcurrency := 3, windowResetAt := some 5000, windowDuration := 30000,
          started := [], nextId := 0 }).windowDuration = 60000) ∧
    ((updateFromHeaders (mkConfig ⟨none, none, none⟩) ⟨none, none, none⟩ 6000
        { queue := [], running := 0, nextAvailableTime := 0, currentInterval := 77,
          currentConcurrency := 3, windowResetAt := some 5000, windowDuration := 30000,
          started := [], nextId := 0 }).currentConcurrency = 1 ∧
     (updateFromHeaders (mkConfig ⟨none, none, none⟩) ⟨none, none, none⟩ 6000
        { queue := [], running := 0, nextAvailableTime := 0, currentInterval := 77,
          currentConcurrency := 3, windowResetAt := some 5000, windowDuration := 30000,
          started := [], nextId := 0 }).currentInterval =
       max (mkConfig ⟨none, none, none⟩).minInterval
         (ceilDiv 60000 (mkConfig ⟨none, none, none⟩).defaultRpm) ∧
     (updateFromHeaders (mkConfig ⟨none, none, none⟩) ⟨none, none, none⟩ 6000
        { queue := [], running := 0, nextAvailableTime := 0, currentInterval := 77,
          currentConcurrency := 3, windowResetAt := some 5000, windowDuration := 30000,
          started := [], nextId := 0 }).windowResetAt = none) :=
  c6_window_reset (mkConfig ⟨none, none, none⟩) _ 5000 6000 rfl (by decide) (by decide)

/-! ## C3: the interval recalculation formula -/

/-- C3 (amended): for every `updateFromHeaders` call carrying a numeric
remaining value r on an engine whose queue is empty, the resulting
currentIntervalMs equals `max(minInterval, ceil(T / (max(0, r) + 1)))`,
where T is the effective time-to-reset read off the resulting state:
`max(0, windowResetAt - now)` when a (truthy) reset time is known,
with the current window duration substituted when that difference (or
the unknown-reset fallback) computes to 0. -/
theorem c3_interval_formula (cfg : LimiterConfig) (h : RateHeaders) (now : Nat)
    (s : LimiterState) (r : Int) (hq : s.queue = []) (hr : h.remaining = some r) :
    (updateFromHeaders cfg h now s).currentInterval =
      max cfg.minInterval
        (ceilDiv (effectiveTimeToReset (updateFromHeaders cfg h now s) now) (r.toNat + 1)) := by
  have hq1 : (applyRemaining cfg h.remaining now
      (applyResetHeader cfg h.resetSeconds now (maybeReset cfg now s))).queue = [] := by
    simp [hq]
  have hU : updateFromHeaders cfg h now s =
      applyRemaining cfg h.remaining now
        (applyResetHeader cfg h.resetSeconds now (maybeReset cfg now s)) := by
    unfold updateFromHeaders
    exact pump_eq_of_empty cfg now _ hq1
  rw [hU, hr]
  rw [applyRemaining_currentInterval_some, calculateInterval_eq]
  congr 2

/-- Witness for C3: the end-to-end scenario of the spec: default
configuration, remaining 59 with a 60-second reset arriving at a
realistic clock; the formula yields the computed interval (1000 ms). -/
theorem c3_interval_formula_witness :
    (updateFromHeaders (mkConfig ⟨none, none, none⟩) ⟨some 59, some 60, none⟩
        1700000000000 (initState (mkConfig ⟨none, none, none⟩))).currentInterval =
      max (mkConfig ⟨none, none, none⟩).minInterval
        (ceilDiv (effectiveTimeToReset
          (updateFromHeaders (mkConfig ⟨none, none, none⟩) ⟨some 59, some 60, none⟩
            1700000000000 (initState (mkConfig ⟨none, none, none⟩))) 1700000000000)
          ((59 : Int).toNat + 1)) :=
  c3_interval_formula (mkConfig ⟨none, none, none⟩) ⟨some 59, some 60, none⟩
    1700000000000 (initState (mkConfig ⟨none, none, none⟩)) 59 rfl rfl

/-- Counterexample for C3 as stated: a call with remaining 0 and
resetSeconds 0 at time n2 (after an earlier 30-second window was
announced) sets windowResetAt to n2 itself; the claim's formula gives
`max(minInterval, ceil((windowResetAt - now) / tokens)) = 0` reading
the resulting reset time (or 29000 reading the pre-call reset time),
but the code falls back to the stored windowDuration and computes
30000. -/
theorem c3_interval_counterexample :
    (updateFromHeaders (mkConfig ⟨none, none, none⟩) ⟨some 0, some 0, none⟩ 1700000001000
        (updateFromHeaders (mkConfig ⟨none, none, none⟩) ⟨none, some 30, none⟩ 1700000000000
          (initState (mkConfig ⟨none, none, none⟩)))).windowResetAt =
      some 1700000001000 ∧
    (updateFromHeaders (mkConfig ⟨none, none, none⟩) ⟨some 0, some 0, none⟩ 1700000001000
        (updateFromHeaders (mkConfig ⟨none, none, none⟩) ⟨none, some 30, none⟩ 1700000000000
          (initState (mkConfig ⟨none, none, none⟩)))).currentInterval = 30000 ∧
    (updateFromHeaders (mkConfig ⟨none, none, none⟩) ⟨none, some 30, none⟩ 1700000000000
        (initState (mkConfig ⟨none, none, none⟩))).windowResetAt = some 1700000030000 ∧
    30000 ≠ max (mkConfig ⟨none, none, none⟩).minInterval
      (ceilDiv (1700000001000 - 1700000001000) ((0 : Int).toNat + 1)) ∧
    30000 ≠ max (mkConfig ⟨none, none, none⟩).minInterval
      (ceilDiv (1700000030000 - 1700000001000) ((0 : Int).toNat + 1)) := by
  decide

/-! ## C8: monotonicity of the recalculated interval -/

/-- C8 (amended): starting from one state and instant, the
currentIntervalMs computed by `updateFromHeaders \x7bremaining: r,
resetSeconds: s\x7d` is monotone — non-strictly — in the headers:
non-increasing in r with s held fixed, and non-decreasing in s with r
held fixed for reset values interpreted as relative durations of at
least one second (s ≥ 1, s ≤ floor(now/1000) + 5 and s ≤ 100000).
Strictness fails (see the counterexample), e.g. when the minimum
interval floor dominates. -/
theorem c8_interval_monotone (cfg : LimiterConfig) (now : Nat) (s : LimiterState) :
    (∀ (rs : Option Int) (r1 r2 : Int), r1 ≤ r2 →
      (updateFromHeaders cfg ⟨some r2, rs, none⟩ now s).currentInterval ≤
        (updateFromHeaders cfg ⟨some r1, rs, none⟩ now s).currentInterval) ∧
    (∀ (r v1 v2 : Int), 1 ≤ v1 → v1 ≤ v2 →
      v2.toNat ≤ now / 1000 + 5 → v2.toNat ≤ 100000 →
      (updateFromHeaders cfg ⟨some r, some v1, none⟩ now s).currentInterval ≤
        (updateFromHeaders cfg ⟨some r, some v2, none⟩ now s).currentInterval) := by
  constructor
  · intro rs r1 r2 hr
    have key : ∀ r : Int,
        (updateFromHeaders cfg ⟨some r, rs, none⟩ now s).currentInterval =
          (if (applyResetHeader cfg rs now (maybeReset cfg now s)).queue.isEmpty then
            calculateInterval cfg (r.toNat + 1)
              (effectiveTimeToReset (applyResetHeader cfg rs now (maybeReset cfg now s)) now)
          else
            if resetDueB (applyResetHeader cfg rs now (maybeReset cfg now s)) now then
              defaultInterval cfg
            else
              calculateInterval cfg (r.toNat + 1)
                (effectiveTimeToReset (applyResetHeader cfg rs now (maybeReset cfg now s)) now)) := by
      intro r
      have hU : updateFromHeaders cfg ⟨some r, rs, none⟩ now s =
          pump cfg now (applyRemaining cfg (some r) now
            (applyResetHeader cfg rs now (maybeReset cfg now s))) := rfl
      rw [hU, pump_currentInterval, applyRemaining_queue, maybeReset_currentInterval,
        resetDueB_congr now (applyRemaining_windowResetAt cfg (some r) now _),
        applyRemaining_currentInterval_some]
    rw [key r1, key r2]
    have htok : r1.toNat + 1 ≤ r2.toNat + 1 := Nat.succ_le_succ (Int.toNat_le_toNat hr)
    split_ifs
    · exact calculateInterval_anti_tokens cfg _ _ _ htok
    · exact le_rfl
    · exact calculateInterval_anti_tokens cfg _ _ _ htok
  · intro r v1 v2 h1 h12 hb1 hb2
    have h12n : v1.toNat ≤ v2.toNat := Int.toNat_le_toNat h12
    have hv1n : 1 ≤ v1.toNat := by
      have h := Int.toNat_le_toNat h1
      simpa using h
    have hv2n : 1 ≤ v2.toNat := le_trans hv1n h12n
    have hc1 : ¬(now / 1000 + 5 < v1.toNat ∨ 100000 < v1.toNat) := by omega
    have hc2 : ¬(now / 1000 + 5 < v2.toNat ∨ 100000 < v2.toNat) := by omega
    have key : ∀ (v : Int), 1 ≤ v.toNat →
        ¬(now / 1000 + 5 < v.toNat ∨ 100000 < v.toNat) →
        (updateFromHeaders cfg ⟨some r, some v, none⟩ now s).currentInterval =
          calculateInterval cfg (r.toNat + 1) (v.toNat * 1000) := by
      intro v hv hc
      have eB := applyResetHeader_relative cfg v now (maybeReset cfg now s) hv hc
      have hU : updateFromHeaders cfg ⟨some r, some v, none⟩ now s =
          pump cfg now (applyRemaining cfg (some r) now
            (applyResetHeader cfg (some v) now (maybeReset cfg now s))) := rfl
      rw [hU, eB]
      have hfut : now < now + v.toNat * 1000 := by omega
      have heff : effectiveTimeToReset
          ({ maybeReset cfg now s with
              windowResetAt := some (now + v.toNat * 1000)
              windowDuration := v.toNat * 1000 } : LimiterState) now = v.toNat * 1000 := by
        have h := effT_of_future
          (s := { maybeReset cfg now s with
                    windowResetAt := some (now + v.toNat * 1000)
                    windowDuration := v.toNat * 1000 })
          (t := now + v.toNat * 1000) rfl hfut
        rw [h]
        omega
      have hnd : resetDueB (applyRemaining cfg (some r) now
          ({ maybeReset cfg now s with
              windowResetAt := some (now + v.toNat * 1000)
              windowDuration := v.toNat * 1000 } : LimiterState)) now = false := by
        rw [resetDueB_congr now (applyRemaining_windowResetAt cfg (some r) now _)]
        exact resetDueB_of_future (t := now + v.toNat * 1000) rfl hfut
      rw [(pump_pacing_of_notDue cfg now _ hnd).1, applyRemaining_currentInterval_some, heff]
    rw [key v1 hv1n hc1, key v2 hv2n hc2]
    exact calculateInterval_mono_time cfg (r.toNat + 1) _ _ (by omega)

/-- Witness for C8: under the default configuration at a realistic
clock, raising remaining from 3 to 5 does not raise the interval, and
raising resetSeconds from 10 to 20 does not lower it. -/
theorem c8_interval_monotone_witness :
    (updateFromHeaders (mkConfig ⟨none, none, none⟩) ⟨some 5, none, none⟩ 1700000000000
        (initState (mkConfig ⟨none, none, none⟩))).currentInterval ≤
      (updateFromHeaders (mkConfig ⟨none, none, none⟩) ⟨some 3, none, none⟩ 1700000000000
        (initState (mkConfig ⟨none, none, none⟩))).currentInterval ∧
    (updateFromHeaders (mkConfig ⟨none, none, none⟩) ⟨some 2, some 10, none⟩ 1700000000000
        (initState (mkConfig ⟨none, none, none⟩))).currentInterval ≤
      (updateFromHeaders (mkConfig ⟨none, none, none⟩) ⟨some 2, some 20, none⟩ 1700000000000
        (initState (mkConfig ⟨none, none, none⟩))).currentInterval :=
  ⟨(c8_interval_monotone (mkConfig ⟨none, none, none⟩) 1700000000000
      (initState (mkConfig ⟨none, none, none⟩))).1 none 3 5 (by decide),
   (c8_interval_monotone (mkConfig ⟨none, none, none⟩) 1700000000000
      (initState (mkConfig ⟨none, none, none⟩))).2 2 10 20 (by decide) (by decide)
     (by decide) (by decide)⟩

/-- Counterexample for C8 as stated: with minIntervalMs 5000, raising
remaining from 1 to 2 (resetSeconds fixed at 2) leaves the interval at
5000 instead of strictly decreasing it, and raising resetSeconds from
1 to 2 (remaining fixed at 0) leaves it at 5000 instead of strictly
increasing it. -/
theorem c8_strict_counterexample :
    (updateFromHeaders (mkConfig ⟨some 60, some 4, some 5000⟩) ⟨some 2, some 2, none⟩
        1700000000000 (initState (mkConfig ⟨some 60, some 4, some 5000⟩))).currentInterval =
      5000 ∧
    ¬((updateFromHeaders (mkConfig ⟨some 60, some 4, some 5000⟩) ⟨some 2, some 2, none⟩
        1700000000000 (initState (mkConfig ⟨some 60, some 4, some 5000⟩))).currentInterval <
      (updateFromHeaders (mkConfig ⟨some 60, some 4, some 5000⟩) ⟨some 1, some 2, none⟩
        1700000000000 (initState (mkConfig ⟨some 60, some 4, some 5000⟩))).currentInterval) ∧
    ¬((updateFromHeaders (mkConfig ⟨some 60, some 4, some 5000⟩) ⟨some 0, some 1, none⟩
        1700000000000 (initState (mkConfig ⟨some 60, some 4, some 5000⟩))).currentInterval <
      (updateFromHeaders (mkConfig ⟨some 60, some 4, some 5000⟩) ⟨some 0, some 2, none⟩
        1700000000000 (initState (mkConfig ⟨some 60, some 4, some 5000⟩))).currentInterval) := by
  decide

/-! ## C4: concurrency bounds along every trace -/

@[simp] theorem penalize_queue (now : Nat) (w : Int) (s : LimiterState) :
    (penalize now w s).queue = s.queue := by
  unfold penalize; dsimp only; split <;> rfl

@[simp] theorem penalize_running (now : Nat) (w : Int) (s : LimiterState) :
    (penalize now w s).running = s.running := by
  unfold penalize; dsimp only; split <;> rfl

@[simp] theorem penalize_started (now : Nat) (w : Int) (s : LimiterState) :
    (penalize now w s).started = s.started := by
  unfold penalize; dsimp only; split <;> rfl

@[simp] theorem penalize_nextId (now : Nat) (w : Int) (s : LimiterState) :
    (penalize now w s).nextId = s.nextId := by
  unfold penalize; dsimp only; split <;> rfl

@[simp] theorem penalize_currentConcurrency (now : Nat) (w : Int) (s : LimiterState) :
    (penalize now w s).currentConcurrency = s.currentConcurrency := by
  unfold penalize; dsimp only; split <;> rfl

theorem maybeReset_concInv (cfg : LimiterConfig) (now : Nat) (s : LimiterState)
    (hmax : 1 ≤ cfg.maxConcurrency)
    (h : s.running ≤ cfg.maxConcurrency ∧ 1 ≤ s.currentConcurrency ∧
      s.currentConcurrency ≤ cfg.maxConcurrency) :
    (maybeReset cfg now s).running ≤ cfg.maxConcurrency ∧
      1 ≤ (maybeReset cfg now s).currentConcurrency ∧
      (maybeReset cfg now s).currentConcurrency ≤ cfg.maxConcurrency := by
  rw [maybeReset_eq]
  split
  · exact ⟨h.1, le_rfl, hmax⟩
  · exact h

theorem pump_concInv (cfg : LimiterConfig) (now : Nat) (s : LimiterState)
    (hmax : 1 ≤ cfg.maxConcurrency)
    (h : s.running ≤ cfg.maxConcurrency ∧ 1 ≤ s.currentConcurrency ∧
      s.currentConcurrency ≤ cfg.maxConcurrency) :
    (pump cfg now s).running ≤ cfg.maxConcurrency ∧
      1 ≤ (pump cfg now s).currentConcurrency ∧
      (pump cfg now s).currentConcurrency ≤ cfg.maxConcurrency := by
  have h1 := maybeReset_concInv cfg now s hmax h
  unfold pump
  split
  · exact h
  · dsimp only
    split
    · exact h1
    · split
      · exact h1
      · split
        · exact h1
        · dsimp only
          refine ⟨?_, h1.2.1, h1.2.2⟩
          have h2 := h1.2.2
          omega

theorem applyRemaining_concInv (cfg : LimiterConfig) (rem : Option Int) (now : Nat)
    (s : LimiterState) (hmax : 1 ≤ cfg.maxConcurrency)
    (h : s.running ≤ cfg.maxConcurrency ∧ 1 ≤ s.currentConcurrency ∧
      s.currentConcurrency ≤ cfg.maxConcurrency) :
    (applyRemaining cfg rem now s).running ≤ cfg.maxConcurrency ∧
      1 ≤ (applyRemaining cfg rem now s).currentConcurrency ∧
      (applyRemaining cfg rem now s).currentConcurrency ≤ cfg.maxConcurrency := by
  rcases rem with _ | r
  · exact h
  · have hb := calculateConcurrency_bounds cfg hmax (r.toNat + 1)
      (effectiveTimeToReset s now)
    exact ⟨h.1, hb.1, hb.2⟩

theorem applyResetHeader_concInv (cfg : LimiterConfig) (rs : Option Int) (now : Nat)
    (s : LimiterState)
    (h : s.running ≤ cfg.maxConcurrency ∧ 1 ≤ s.currentConcurrency ∧
      s.currentConcurrency ≤ cfg.maxConcurrency) :
    (applyResetHeader cfg rs now s).running ≤ cfg.maxConcurrency ∧
      1 ≤ (applyResetHeader cfg rs now s).currentConcurrency ∧
      (applyResetHeader cfg rs now s).currentConcurrency ≤ cfg.maxConcurrency := by
  rw [applyResetHeader_running, applyResetHeader_currentConcurrency]
  exact h

theorem stepE_concInv (cfg : LimiterConfig) (s : LimiterState) (e : LEvent)
    (hmax : 1 ≤ cfg.maxConcurrency)
    (h : s.running ≤ cfg.maxConcurrency ∧ 1 ≤ s.currentConcurrency ∧
      s.currentConcurrency ≤ cfg.maxConcurrency) :
    (stepE cfg s e).running ≤ cfg.maxConcurrency ∧
      1 ≤ (stepE cfg s e).currentConcurrency ∧
      (stepE cfg s e).currentConcurrency ≤ cfg.maxConcurrency := by
  cases e with
  | schedule now =>
    exact pump_concInv cfg now _ hmax ⟨h.1, h.2.1, h.2.2⟩
  | update hh now =>
    exact pump_concInv cfg now _ hmax
      (applyRemaining_concInv cfg hh.remaining now _ hmax
        (applyResetHeader_concInv cfg hh.resetSeconds now _
          (maybeReset_concInv cfg now s hmax h)))
  | penalty w now =>
    rw [show stepE cfg s (LEvent.penalty w now) = penalize now w s from rfl,
      penalize_running, penalize_currentConcurrency]
    exact h
  | timer now =>
    exact pump_concInv cfg now s hmax h
  | finish now =>
    exact pump_concInv cfg now _ hmax ⟨le_trans (Nat.sub_le _ _) h.1, h.2.1, h.2.2⟩

theorem runE_concInv (cfg : LimiterConfig) (hmax : 1 ≤ cfg.maxConcurrency)
    (evs : List LEvent) :
    ∀ s : LimiterState,
      s.running ≤ cfg.maxConcurrency ∧ 1 ≤ s.currentConcurrency ∧
        s.currentConcurrency ≤ cfg.maxConcurrency →
      (runE cfg s evs).running ≤ cfg.maxConcurrency ∧
        1 ≤ (runE cfg s evs).currentConcurrency ∧
        (runE cfg s evs).currentConcurrency ≤ cfg.maxConcurrency := by
  induction evs with
  | nil => intro s h; exact h
  | cons e es ih => intro s h; exact ih (stepE cfg s e) (stepE_concInv cfg s e hmax h)

/-- C4 (amended): along every event trace on one SmoothRateLimiter, the
number of running tasks never exceeds the configured maxConcurrency
ceiling and currentConcurrency is always at least 1 (a task is admitted
only while `running < currentConcurrency`, and currentConcurrency never
exceeds the ceiling); `running ≤ currentConcurrency` itself can be
transiently violated after a header-driven concurrency decrease — see
the counterexample. -/
theorem c4_concurrency_invariant (o : SmoothRateLimiterOptions) (evs : List LEvent) :
    (runE (mkConfig o) (initState (mkConfig o)) evs).running ≤
        (mkConfig o).maxConcurrency ∧
      1 ≤ (runE (mkConfig o) (initState (mkConfig o)) evs).currentConcurrency ∧
      (runE (mkConfig o) (initState (mkConfig o)) evs).currentConcurrency ≤
        (mkConfig o).maxConcurrency :=
  runE_concInv (mkConfig o) (one_le_mkConfig_maxConcurrency o) evs
    (initState (mkConfig o))
    ⟨Nat.zero_le _, le_rfl, one_le_mkConfig_maxConcurrency o⟩

/-- Counterexample for C4 as stated: a reachable trace — admit a task,
learn a generous quota (concurrency rises to 2), admit a second task,
then learn the quota is exhausted (concurrency falls to 1) — ends with
2 tasks running but currentConcurrency 1, violating
`runningCount ≤ currentConcurrency`. -/
theorem c4_concurrency_counterexample :
    (runE (mkConfig ⟨none, none, none⟩) (initState (mkConfig ⟨none, none, none⟩))
      [LEvent.schedule 0,
       LEvent.update ⟨some 119, some 60, none⟩ 0,
       LEvent.schedule 1000,
       LEvent.update ⟨some 0, none, none⟩ 1100]).currentConcurrency <
    (runE (mkConfig ⟨none, none, none⟩) (initState (mkConfig ⟨none, none, none⟩))
      [LEvent.schedule 0,
       LEvent.update ⟨some 119, some 60, none⟩ 0,
       LEvent.schedule 1000,
       LEvent.update ⟨some 0, none, none⟩ 1100]).running := by
  decide

/-! ## C5: FIFO admission order -/

theorem stepE_fifo (cfg : LimiterConfig) (s : LimiterState) (e : LEvent)
    (h : s.started ++ s.queue = List.range s.nextId) :
    (stepE cfg s e).started ++ (stepE cfg s e).queue =
      List.range (stepE cfg s e).nextId := by
  cases e with
  | schedule now =>
    have hs : stepE cfg s (LEvent.schedule now) =
        pump cfg now { s with queue := s.queue ++ [s.nextId], nextId := s.nextId + 1 } := rfl
    rw [hs, pump_startedQueue, pump_nextId]
    dsimp only
    rw [← List.append_assoc, h]
    exact (List.range_succ s.nextId).symm
  | update hh now =>
    have hs : stepE cfg s (LEvent.update hh now) =
        pump cfg now (applyRemaining cfg hh.remaining now
          (applyResetHeader cfg hh.resetSeconds now (maybeReset cfg now s))) := rfl
    rw [hs, pump_startedQueue, pump_nextId]
    simpa using h
  | penalty w now =>
    have hs : stepE cfg s (LEvent.penalty w now) = penalize now w s := rfl
    rw [hs, penalize_started, penalize_queue, penalize_nextId]
    exact h
  | timer now =>
    have hs : stepE cfg s (LEvent.timer now) = pump cfg now s := rfl
    rw [hs, pump_startedQueue, pump_nextId]
    exact h
  | finish now =>
    have hs : stepE cfg s (LEvent.finish now) =
        pump cfg now { s with running := s.running - 1 } := rfl
    rw [hs, pump_startedQueue, pump_nextId]
    exact h

theorem runE_fifo (cfg : LimiterConfig) (evs : List LEvent) :
    ∀ s : LimiterState, s.started ++ s.queue = List.range s.nextId →
      (runE cfg s evs).started ++ (runE cfg s evs).queue =
        List.range (runE cfg s evs).nextId := by
  induction evs with
  | nil => intro s h; exact h
  | cons e es ih => intro s h; exact ih (stepE cfg s e) (stepE_fifo cfg s e h)

theorem eq_range_of_append_eq_range (a b : List Nat) (n : Nat)
    (h : a ++ b = List.range n) : a = List.range a.length := by
  have h1 : a = (List.range n).take a.length := by
    rw [← h, List.take_left]
  have hlen : a.length ≤ n := by
    have h2 := congrArg List.length h
    simp only [List.length_append, List.length_range] at h2
    omega
  rw [h1, List.take_range, Nat.min_eq_left hlen]
  simp [List.length_range]

/-- C5: on every event trace, task ids (assigned in enqueue order by
the counter) satisfy `started ++ queue = range nextId`: every admitted
prefix is exactly the earliest-enqueued tasks in enqueue order, so no
queued task ever starts before one enqueued earlier — admission is
strictly FIFO. -/
theorem c5_fifo_order (o : SmoothRateLimiterOptions) (evs : List LEvent) :
    (runE (mkConfig o) (initState (mkConfig o)) evs).started ++
        (runE (mkConfig o) (initState (mkConfig o)) evs).queue =
      List.range (runE (mkConfig o) (initState (mkConfig o)) evs).nextId ∧
    (runE (mkConfig o) (initState (mkConfig o)) evs).started =
      List.range (runE (mkConfig o) (initState (mkConfig o)) evs).started.length := by
  have h := runE_fifo (mkConfig o) evs (initState (mkConfig o)) rfl
  exact ⟨h, eq_range_of_append_eq_range _ _ _ h⟩

/-! ## C7: idempotence of updateFromHeaders -/

theorem applyResetHeader_notDue (cfg : LimiterConfig) (h : RateHeaders) (now : Nat)
    (s : LimiterState) (hsafe : resetHeaderSafe h now = true)
    (hs : resetDueB s now = false) :
    resetDueB (applyResetHeader cfg h.resetSeconds now s) now = false := by
  rcases hrs : h.resetSeconds with _ | v
  · exact hs
  · unfold resetHeaderSafe at hsafe
    rw [hrs] at hsafe
    dsimp only at hsafe
    by_cases hcond : now / 1000 + 5 < v.toNat ∨ 100000 < v.toNat
    · rw [if_pos hcond] at hsafe
      have hfut : now < v.toNat * 1000 := of_decide_eq_true hsafe
      rw [applyResetHeader_absolute cfg v now s hcond hfut]
      exact resetDueB_of_future rfl hfut
    · rw [if_neg hcond] at hsafe
      have hc : 1 ≤ v.toNat ∨ now = 0 := of_decide_eq_true hsafe
      rcases hc with hc | hc
      · rw [applyResetHeader_relative cfg v now s hc hcond]
        exact resetDueB_of_future rfl (by omega)
      · subst hc
        by_cases hv : 1 ≤ v.toNat
        · rw [applyResetHeader_relative cfg v 0 s hv hcond]
          exact resetDueB_of_future rfl (by omega)
        · have hv0 : v.toNat = 0 := by omega
          rw [applyResetHeader_zero_now cfg v s hv0]
          exact hs

theorem applyResetHeader_repeat (cfg : LimiterConfig) (h : RateHeaders) (now : Nat)
    (hsafe : resetHeaderSafe h now = true) (s s' : LimiterState)
    (hw : s'.windowResetAt = (applyResetHeader cfg h.resetSeconds now s).windowResetAt)
    (hd : s'.windowDuration = (applyResetHeader cfg h.resetSeconds now s).windowDuration) :
    (applyResetHeader cfg h.resetSeconds now s').windowResetAt =
        (applyResetHeader cfg h.resetSeconds now s).windowResetAt ∧
      (applyResetHeader cfg h.resetSeconds now s').windowDuration =
        (applyResetHeader cfg h.resetSeconds now s).windowDuration := by
  rcases hrs : h.resetSeconds with _ | v
  · rw [hrs] at hw hd
    exact ⟨hw, hd⟩
  · rw [hrs] at hw hd
    unfold resetHeaderSafe at hsafe
    rw [hrs] at hsafe
    dsimp only at hsafe
    by_cases hcond : now / 1000 + 5 < v.toNat ∨ 100000 < v.toNat
    · rw [if_pos hcond] at hsafe
      have hfut : now < v.toNat * 1000 := of_decide_eq_true hsafe
      rw [applyResetHeader_absolute cfg v now s hcond hfut,
        applyResetHeader_absolute cfg v now s' hcond hfut]
      exact ⟨rfl, rfl⟩
    · rw [if_neg hcond] at hsafe
      have hc : 1 ≤ v.toNat ∨ now = 0 := of_decide_eq_true hsafe
      rcases hc with hc | hc
      · rw [applyResetHeader_relative cfg v now s hc hcond,
          applyResetHeader_relative cfg v now s' hc hcond]
        exact ⟨rfl, rfl⟩
      · subst hc
        by_cases hv : 1 ≤ v.toNat
        · rw [applyResetHeader_relative cfg v 0 s hv hcond,
            applyResetHeader_relative cfg v 0 s' hv hcond]
          exact ⟨rfl, rfl⟩
        · have hv0 : v.toNat = 0 := by omega
          rw [applyResetHeader_zero_now cfg v s hv0] at hw hd
          rw [applyResetHeader_zero_now cfg v s hv0, applyResetHeader_zero_now cfg v s' hv0]
          exact ⟨hw, hd⟩

/-- C7 (amended): calling `updateFromHeaders` twice in succession with
identical header values and at the same instant leaves the pacing state
(currentIntervalMs, currentConcurrency, windowResetAt, windowDuration)
identical to calling it once, provided the headers' reset value (if
any) resolves to a reset time strictly in the future — relative
resetSeconds of at least one second, or an absolute timestamp beyond
`now`.  When the resolved reset time is not in the future (e.g.
resetSeconds 0), the second call first fires the window reset that the
first call armed and recomputes pacing from the default window, which
can differ — see the counterexample. -/
theorem c7_idempotent (cfg : LimiterConfig) (h : RateHeaders) (now : Nat) (s : LimiterState)
    (hsafe : resetHeaderSafe h now = true) :
    pacing4 (updateFromHeaders cfg h now (updateFromHeaders cfg h now s)) =
      pacing4 (updateFromHeaders cfg h now s) := by
  have hU : ∀ x : LimiterState, updateFromHeaders cfg h now x =
      pump cfg now (applyRemaining cfg h.remaining now
        (applyResetHeader cfg h.resetSeconds now (maybeReset cfg now x))) :=
    fun x => rfl
  rw [hU s, hU]
  set sA := maybeReset cfg now s with hsA
  set sB := applyResetHeader cfg h.resetSeconds now sA with hsB
  set sC := applyRemaining cfg h.remaining now sB with hsC
  set sD := pump cfg now sC with hsD
  have hA : resetDueB sA now = false := by
    rw [hsA]; exact maybeReset_notDue_after cfg now s
  have hB : resetDueB sB now = false := by
    rw [hsB]; exact applyResetHeader_notDue cfg h now sA hsafe hA
  have hCw : sC.windowResetAt = sB.windowResetAt := by
    rw [hsC]; exact applyRemaining_windowResetAt cfg h.remaining now sB
  have hCd : sC.windowDuration = sB.windowDuration := by
    rw [hsC]; exact applyRemaining_windowDuration cfg h.remaining now sB
  have hC : resetDueB sC now = false := by
    rw [resetDueB_congr now hCw]; exact hB
  have hp := pump_pacing_of_notDue cfg now sC hC
  have hD1 : sD.currentInterval = sC.currentInterval := by rw [hsD]; exact hp.1
  have hD2 : sD.currentConcurrency = sC.currentConcurrency := by rw [hsD]; exact hp.2.1
  have hD3 : sD.windowResetAt = sC.windowResetAt := by rw [hsD]; exact hp.2.2.1
  have hD4 : sD.windowDuration = sC.windowDuration := by rw [hsD]; exact hp.2.2.2
  have hDnd : resetDueB sD now = false := by
    rw [resetDueB_congr now hD3]; exact hC
  have hmr2 : maybeReset cfg now sD = sD := maybeReset_eq_self_of_notDue cfg now sD hDnd
  rw [hmr2]
  have hw' : sD.windowResetAt = (applyResetHeader cfg h.resetSeconds now sA).windowResetAt := by
    rw [← hsB]; exact hD3.trans hCw
  have hd' : sD.windowDuration = (applyResetHeader cfg h.resetSeconds now sA).windowDuration := by
    rw [← hsB]; exact hD4.trans hCd
  have hrep := applyResetHeader_repeat cfg h now hsafe sA sD hw' hd'
  have htBw : (applyResetHeader cfg h.resetSeconds now sD).windowResetAt =
      sB.windowResetAt := by
    rw [hsB]; exact hrep.1
  have htBd : (applyResetHeader cfg h.resetSeconds now sD).windowDuration =
      sB.windowDuration := by
    rw [hsB]; exact hrep.2
  set tB := applyResetHeader cfg h.resetSeconds now sD with htB
  set tC := applyRemaining cfg h.remaining now tB with htC
  have htBi : tB.currentInterval = sD.currentInterval := by
    rw [htB]; exact applyResetHeader_currentInterval cfg h.resetSeconds now sD
  have htBc : tB.currentConcurrency = sD.currentConcurrency := by
    rw [htB]; exact applyResetHeader_currentConcurrency cfg h.resetSeconds now sD
  have htCw : tC.windowResetAt = sB.windowResetAt := by
    rw [htC, applyRemaining_windowResetAt]
    exact htBw
  have htCd : tC.windowDuration = sB.windowDuration := by
    rw [htC, applyRemaining_windowDuration]
    exact htBd
  have htCi : tC.currentInterval = sC.currentInterval := by
    rcases hrem : h.remaining with _ | r
    · rw [htC, hrem]
      show tB.currentInterval = sC.currentInterval
      rw [htBi, hD1]
    · rw [htC, hrem, applyRemaining_currentInterval_some]
      rw [hsC, hrem, applyRemaining_currentInterval_some]
      rw [effectiveTimeToReset_congr now htBw htBd]
  have htCc : tC.currentConcurrency = sC.currentConcurrency := by
    rcases hrem : h.remaining with _ | r
    · rw [htC, hrem]
      show tB.currentConcurrency = sC.currentConcurrency
      rw [htBc, hD2]
    · rw [htC, hrem, applyRemaining_currentConcurrency_some]
      rw [hsC, hrem, applyRemaining_currentConcurrency_some]
      rw [effectiveTimeToReset_congr now htBw htBd]
  have htCnd : resetDueB tC now = false := by
    rw [resetDueB_congr now htCw]; exact hB
  have hp2 := pump_pacing_of_notDue cfg now tC htCnd
  unfold pacing4
  rw [hp2.1, hp2.2.1, hp2.2.2.1, hp2.2.2.2, htCi, htCc, htCw, htCd, hD1, hD2, hD3, hD4,
    hCw, hCd]

/-- Witness for C7: a header set with remaining 5 and a 30-second reset
applied twice at the same realistic instant from the initial state
yields the same pacing quadruple as applying it once. -/
theorem c7_idempotent_witness :
    pacing4 (updateFromHeaders (mkConfig ⟨none, none, none⟩) ⟨some 5, some 30, none⟩
        1700000000000 (updateFromHeaders (mkConfig ⟨none, none, none⟩)
          ⟨some 5, some 30, none⟩ 1700000000000 (initState (mkConfig ⟨none, none, none⟩)))) =
      pacing4 (updateFromHeaders (mkConfig ⟨none, none, none⟩) ⟨some 5, some 30, none⟩
        1700000000000 (initState (mkConfig ⟨none, none, none⟩))) :=
  c7_idempotent (mkConfig ⟨none, none, none⟩) ⟨some 5, some 30, none⟩ 1700000000000
    (initState (mkConfig ⟨none, none, none⟩)) (by decide)

/-- Counterexample for C7 as stated: after a 30-second window is
announced, applying \x7bremaining: 0, resetSeconds: 0\x7d once at n2
computes interval 30000 (windowResetAt becomes n2, duration stays 30000),
but applying the identical headers twice computes 60000: the second
call fires the reset armed at n2 and recomputes from the 60000 default
window — the pacing state is not idempotent. -/
theorem c7_idempotent_counterexample :
    (updateFromHeaders (mkConfig ⟨none, none, none⟩) ⟨some 0, some 0, none⟩ 1700000001000
        (updateFromHeaders (mkConfig ⟨none, none, none⟩) ⟨some 0, some 0, none⟩ 1700000001000
          (updateFromHeaders (mkConfig ⟨none, none, none⟩) ⟨none, some 30, none⟩
            1700000000000 (initState (mkConfig ⟨none, none, none⟩))))).currentInterval =
      60000 ∧
    (updateFromHeaders (mkConfig ⟨none, none, none⟩) ⟨some 0, some 0, none⟩ 1700000001000
        (updateFromHeaders (mkConfig ⟨none, none, none⟩) ⟨none, some 30, none⟩
          1700000000000 (initState (mkConfig ⟨none, none, none⟩)))).currentInterval =
      30000 ∧
    (updateFromHeaders (mkConfig ⟨none, none, none⟩) ⟨some 0, some 0, none⟩ 1700000001000
        (updateFromHeaders (mkConfig ⟨none, none, none⟩) ⟨some 0, some 0, none⟩ 1700000001000
          (updateFromHeaders (mkConfig ⟨none, none, none⟩) ⟨none, some 30, none⟩
            1700000000000 (initState (mkConfig ⟨none, none, none⟩))))).windowDuration =
      60000 ∧
    (updateFromHeaders (mkConfig ⟨none, none, none⟩) ⟨some 0, some 0, none⟩ 1700000001000
        (updateFromHeaders (mkConfig ⟨none, none, none⟩) ⟨none, some 30, none⟩
          1700000000000 (initState (mkConfig ⟨none, none, none⟩)))).windowDuration =
      30000 := by
  decide

/-! ## Retry loop: exhaustion on persistent transient failures -/

theorem withRetriesGo_allFail {A : Type} (errs : Nat → HttpErr)
    (hall : ∀ n, shouldRetry (errs n).status = true) :
    ∀ (fuel attempt : Nat) (e0 : RunErr),
      withRetriesGo (A := A) (fun n => Except.error (RunErr.http (errs n))) attempt (fuel + 1) e0 =
        (Except.error (RunErr.http (errs (attempt + fuel))), attempt + fuel + 1) := by
  intro fuel
  induction fuel with
  | zero =>
    intro attempt e0
    simp [withRetriesGo, errRetryable, hall attempt]
  | succ n ih =>
    intro attempt e0
    have hstep :
        withRetriesGo (A := A) (fun n => Except.error (RunErr.http (errs n)))
            attempt (n + 1 + 1) e0 =
          withRetriesGo (A := A) (fun n => Except.error (RunErr.http (errs n)))
            (attempt + 1) (n + 1) (RunErr.http (errs attempt)) := by
      simp [withRetriesGo, errRetryable, hall attempt]
    rw [hstep, ih (attempt + 1) (RunErr.http (errs attempt))]
    have harith : attempt + 1 + n = attempt + (n + 1) := by omega
    rw [harith]

/-- C1: for every request whose transport call always fails with an HTTP
status in the retryable set \x7b429, 500, 503\x7d, `HttpClient.request`
makes exactly `retries + 1` transport attempts (with
`retries = max(0, configured retries ?? 3)`) and then throws the
`HttpError` produced by the last attempt, every earlier attempt's error
being discarded. -/
theorem c1_retry_exhaustion {A : Type} (optRetries : Option Int) (errs : Nat → HttpErr)
    (hall : ∀ n, shouldRetry (errs n).status = true) :
    withRetries (A := A) (mkRetries optRetries)
        (fun n => Except.error (RunErr.http (errs n))) =
      (Except.error (RunErr.http (errs (mkRetries optRetries))), mkRetries optRetries + 1) := by
  unfold withRetries
  have h := withRetriesGo_allFail (A := A) errs hall (mkRetries optRetries) 0
    (RunErr.other "no attempt")
  simpa using h

/-- Witness for C1: with configured retries 2 and a server that always
fails with 429 (each attempt producing a distinct error), exactly 3
attempts happen and the error of attempt index 2 is raised. -/
theorem c1_retry_exhaustion_witness :
    withRetries (A := Nat) (mkRetries (some 2))
        (fun n => Except.error (RunErr.http ⟨429, some (n : Int)⟩)) =
      (Except.error (RunErr.http ⟨429, some ((2 : Nat) : Int)⟩), mkRetries (some 2) + 1) :=
  c1_retry_exhaustion (A := Nat) (some 2) (fun n => ⟨429, some (n : Int)⟩) (fun _ => rfl)

/-! ## Cache round-trip and 304 handling -/

/-- C2: for a cacheable request whose key holds a cache entry `c`, an ok
response carrying the same etag as `c` yields the stored payload (for
every parse/validate function, i.e. nothing is parsed from the new
body), a 304 response yields the stored payload without consulting the
parser at all, and an ok first attempt makes the retry loop return it
after exactly one attempt. -/
theorem c2_cache_roundtrip {A : Type} (pv : Response → Except String A) (c : CacheEntry A)
    (resp : Response) (o : Option Int) (hne : c.etag ≠ "") :
    (resp.ok = true → hget resp.headers "etag" = some c.etag →
      runOnce true (some c) pv resp = (Except.ok c.data, some c)) ∧
    (resp.status = 304 →
      runOnce true (some c) pv resp = (Except.ok c.data, some c)) ∧
    ((runOnce true (some c) pv resp).1 = Except.ok c.data →
      withRetries (mkRetries o) (fun _ => (runOnce true (some c) pv resp).1) =
        (Except.ok c.data, 1)) := by
  refine ⟨?_, ?_, ?_⟩
  · intro hok hetag
    have hlt : resp.status < 300 := by
      have h1 := hok
      simp only [Response.ok, Bool.and_eq_true] at h1
      exact Nat.blt_eq.mp h1.2
    have h304 : (resp.status == 304) = false := by
      simp only [beq_eq_false_iff_ne]
      omega
    have hmatch : etagMatches (some c) (hget resp.headers "etag") = true := by
      rw [hetag]
      simp [etagMatches, hne]
    simp [runOnce, h304, hok, hmatch]
  · intro h304
    simp [runOnce, h304]
  · intro hfst
    simp [withRetries, withRetriesGo, hfst]

/-- Witness for C2: a stored entry with etag "abc" and payload 7; the
next response is a 200 with the same etag but a different raw body, and
the parser (which would produce 12) is bypassed: the stored 7 comes
back and the cache is unchanged. -/
theorem c2_cache_roundtrip_witness :
    runOnce true (some ⟨"abc", (7 : Nat)⟩) (fun r => Except.ok r.body.length)
        ⟨200, [("etag", "abc")], "changed-body"⟩ =
      (Except.ok 7, some ⟨"abc", 7⟩) :=
  (c2_cache_roundtrip (fun r => Except.ok r.body.length) ⟨"abc", 7⟩
    ⟨200, [("etag", "abc")], "changed-body"⟩ none (by decide)).1 rfl (by decide)

/-- C10: a cacheable request with no stored cache entry that receives a
304 response is treated as a failure: `run` throws an `HttpError` with
status 304, 304 is not retryable, and the retry loop raises it after
exactly one attempt. -/
theorem c10_uncached_304 {A : Type} (pv : Response → Except String A) (o : Option Int)
    (resp : Response) (h304 : resp.status = 304) :
    runOnce true none pv resp = (Except.error (RunErr.http (mkHttpError resp)), none) ∧
    (mkHttpError resp).status = 304 ∧
    shouldRetry 304 = false ∧
    withRetries (mkRetries o) (fun _ => (runOnce true none pv resp).1) =
      (Except.error (RunErr.http (mkHttpError resp)), 1) := by
  have hok : resp.ok = false := by
    simp only [Response.ok, h304]
    decide
  have hrun : runOnce true none pv resp =
      (Except.error (RunErr.http (mkHttpError resp)), none) := by
    simp [runOnce, hok]
  refine ⟨hrun, by simp [mkHttpError, h304], by decide, ?_⟩
  have hretry : errRetryable (RunErr.http (mkHttpError resp)) = false := by
    simp [errRetryable, mkHttpError, h304, shouldRetry]
  simp [withRetries, withRetriesGo, hrun, hretry]

/-- Witness for C10: a concrete 304 response with a retry-after header
and no cache entry produces the classified 304 error after one attempt. -/
theorem c10_uncached_304_witness :
    runOnce true none (fun _ => Except.ok (42 : Nat)) ⟨304, [("retry-after", "7")], "x"⟩ =
      (Except.error (RunErr.http (mkHttpError ⟨304, [("retry-after", "7")], "x"⟩)), none) ∧
    (mkHttpError ⟨304, [("retry-after", "7")], "x"⟩).status = 304 ∧
    shouldRetry 304 = false ∧
    withRetries (mkRetries none)
        (fun _ => (runOnce true none (fun _ => Except.ok (42 : Nat))
          ⟨304, [("retry-after", "7")], "x"⟩).1) =
      (Except.error (RunErr.http (mkHttpError ⟨304, [("retry-after", "7")], "x"⟩)), 1) :=
  c10_uncached_304 (fun _ => Except.ok (42 : Nat)) none ⟨304, [("retry-after", "7")], "x"⟩ rfl

/-! ## Header parser -/

/-- C9: `parseRateHeaders` reads exactly the three headers
x-ratelimit-remaining, x-ratelimit-reset and retry-after; a missing
header or one whose value has no (finite) numeric interpretation yields
an absent field rather than an error.  The function is total and pure
by construction. -/
theorem c9_parse_rate_headers (hs : List (String × String)) :
    parseRateHeaders hs =
      { remaining := num (hget hs "x-ratelimit-remaining")
        resetSeconds := num (hget hs "x-ratelimit-reset")
        retryAfterSeconds := num (hget hs "retry-after") } ∧
    (hget hs "x-ratelimit-remaining" = none → (parseRateHeaders hs).remaining = none) ∧
    (hget hs "x-ratelimit-reset" = none → (parseRateHeaders hs).resetSeconds = none) ∧
    (hget hs "retry-after" = none → (parseRateHeaders hs).retryAfterSeconds = none) ∧
    (∀ v, hget hs "x-ratelimit-remaining" = some v → jsNumber v = none →
      (parseRateHeaders hs).remaining = none) ∧
    (∀ v, hget hs "x-ratelimit-reset" = some v → jsNumber v = none →
      (parseRateHeaders hs).resetSeconds = none) ∧
    (∀ v, hget hs "retry-after" = some v → jsNumber v = none →
      (parseRateHeaders hs).retryAfterSeconds = none) := by
  refine ⟨rfl, ?_, ?_, ?_, ?_, ?_, ?_⟩
  · intro h; simp [parseRateHeaders, num, h]
  · intro h; simp [parseRateHeaders, num, h]
  · intro h; simp [parseRateHeaders, num, h]
  · intro v h1 h2; simp [parseRateHeaders, num, h1, h2]
  · intro v h1 h2; simp [parseRateHeaders, num, h1, h2]
  · intro v h1 h2; simp [parseRateHeaders, num, h1, h2]

/-- Witness for C9: a header set with a mixed-case remaining header, no
reset header and a non-numeric retry-after: reset and retry-after come
back absent. -/
theorem c9_parse_rate_headers_witness :
    (parseRateHeaders [("X-RateLimit-Remaining", "5"), ("retry-after", "abc")]).resetSeconds
        = none ∧
    (parseRateHeaders [("X-RateLimit-Remaining", "5"), ("retry-after", "abc")]).retryAfterSeconds
        = none :=
  ⟨(c9_parse_rate_headers _).2.2.1 (by decide),
   (c9_parse_rate_headers _).2.2.2.2.2.2 "abc" (by decide) (by decide)⟩

end Erlc
